import Mathlib

/-!
# Response encoding and route-variable helpers of `server/transport.go`

A shallow embedding of `encodeResponse`, `encodeError`, `typeErrsStatus` and
`idFromRequest`, together with the parts of the Go standard library they call
(`encoding/json` with `SetIndent("", "  ")`, `http.ResponseWriter`,
`strconv.Atoi`) and of `gorilla/mux` (`mux.Vars`).

Go strings are byte strings; they are represented by Lean strings (sequences
of code points).  Every byte the code inspects is ASCII, and a byte of a
multi-byte UTF-8 sequence is never ASCII, so reading characters instead of
bytes changes no result.
-/

namespace Transport

/-! ## JSON documents and the indenting encoder -/

/-- A JSON document, as `encoding/json` produces it from a Go value. A number
is kept as the literal the encoder prints. Object members are in output
order. -/
inductive Json where
  | null : Json
  | bool (b : Bool) : Json
  | num (literal : String) : Json
  | str (s : String) : Json
  | arr (items : List Json) : Json
  | obj (members : List (String × Json)) : Json
  deriving Repr

/-- The sixteen hexadecimal digits the encoder uses in escapes. -/
def hexDigit (n : Nat) : Char :=
  if n < 10 then Char.ofNat (48 + n) else Char.ofNat (87 + n)

/-- One character of a string literal, as the encoder writes it with HTML
escaping on (the default): the quote and the backslash get a backslash;
backspace, form feed, line feed, carriage return and tab their short escapes
(the first two since Go 1.22, which wrote a u-escape for them before); other
control characters and the characters less-than, greater-than and ampersand a
u-escape, as do U+2028 and U+2029. -/
def escapeChar (c : Char) : List Char :=
  if c = '"' then ['\\', '"']
  else if c = '\\' then ['\\', '\\']
  else if c.toNat = 8 then ['\\', 'b']
  else if c.toNat = 12 then ['\\', 'f']
  else if c = '\n' then ['\\', 'n']
  else if c = '\r' then ['\\', 'r']
  else if c = '\t' then ['\\', 't']
  else if c.toNat < 32 ∨ c = '<' ∨ c = '>' ∨ c = '&' then
    ['\\', 'u', '0', '0', hexDigit (c.toNat / 16), hexDigit (c.toNat % 16)]
  else if c.toNat = 8232 then ['\\', 'u', '2', '0', '2', '8']
  else if c.toNat = 8233 then ['\\', 'u', '2', '0', '2', '9']
  else [c]

/-- A quoted JSON string literal. -/
def quote (s : String) : List Char :=
  '"' :: (s.toList.flatMap escapeChar ++ ['"'])

/-- The line break and indentation in front of an item at nesting `depth`:
a newline and `depth` copies of the two-space indent. -/
def newline (depth : Nat) : List Char :=
  '\n' :: List.replicate (2 * depth) ' '

mutual
/-- The text of a document at nesting `depth`, as `json.Indent` lays it out
with an empty line start and a two-space indent: an empty array or object stays
on one line, otherwise every item goes on a line of its own. -/
def Json.render (depth : Nat) : Json → List Char
  | .null => "null".toList
  | .bool true => "true".toList
  | .bool false => "false".toList
  | .num literal => literal.toList
  | .str s => quote s
  | .arr [] => ['[', ']']
  | .arr (x :: xs) =>
      '[' :: (newline (depth + 1) ++ Json.render (depth + 1) x
        ++ renderItems (depth + 1) xs ++ newline depth ++ [']'])
  | .obj [] => ['\x7b', '\x7d']
  | .obj ((k, v) :: ms) =>
      '\x7b' :: (newline (depth + 1) ++ quote k ++ [':', ' '] ++ Json.render (depth + 1) v
        ++ renderMembers (depth + 1) ms ++ newline depth ++ ['\x7d'])
/-- The items of an array after the first: each behind a comma on a new line. -/
def renderItems (depth : Nat) : List Json → List Char
  | [] => []
  | x :: xs => ',' :: (newline depth ++ Json.render depth x ++ renderItems depth xs)
/-- The members of an object after the first. -/
def renderMembers (depth : Nat) : List (String × Json) → List Char
  | [] => []
  | (k, v) :: ms =>
      ',' :: (newline depth ++ quote k ++ [':', ' '] ++ Json.render depth v
        ++ renderMembers depth ms)
end

/-- The bytes `Encoder.Encode` hands to the writer for a document after
`SetIndent("", "  ")`: the indented text and a final newline. -/
def encodeIndent (doc : Json) : String :=
  String.mk (Json.render 0 doc ++ ['\n'])

/-! ## Go values that reach the encoder -/

/-- A Go `map[string]string`: the nil map, or its entries (a Go map holds a
key once). -/
abbrev GoMap := Option (List (String × String))

/-- A Go `[]map[string]string`: the nil slice, or its elements in order. -/
abbrev GoSlice := Option (List GoMap)

/-- Insertion of one member into members sorted by key; keys compare as
strings do in Go, character by character. -/
def insertMember (m : String × Json) : List (String × Json) → List (String × Json)
  | [] => [m]
  | m1 :: rest =>
    if m1.1.toList < m.1.toList then m1 :: insertMember m rest else m :: m1 :: rest

/-- Members sorted by key, the order in which `encoding/json` writes a map. -/
def sortMembers (ms : List (String × Json)) : List (String × Json) :=
  ms.foldr insertMember []

/-- The document `encoding/json` makes of a `map[string]string`: `null` for
the nil map, otherwise an object with the keys sorted. -/
def marshalMap : GoMap → Json
  | none => .null
  | some entries => .obj (sortMembers (entries.map fun kv => (kv.1, Json.str kv.2)))

/-- The document `encoding/json` makes of a `[]map[string]string`: `null`
for the nil slice, otherwise an array of the elements in slice order. -/
def marshalSlice : GoSlice → Json
  | none => .null
  | some maps => .arr (maps.map marshalMap)

/-- The dynamic type of an `error` value, as far as `typeErrsStatus` tells
types apart: the three error types of package `server` it names, the type of
`errors.New` values, and any other type by name. -/
inductive ErrType where
  | invalidArgumentError : ErrType
  | authError : ErrType
  | forbiddenError : ErrType
  | errorString : ErrType
  | other (name : String) : ErrType
  deriving DecidableEq, Repr

/-- A non-nil `error` value: its dynamic type, the identity of the dynamic
value (two values made by two calls of `errors.New` differ here even when
their texts agree), the result of `Error()`, and the result of `Invalid()`
when the type has that method (`none` when the assertion
`err.(validator)` fails). Go's `==` on two such values is equality of the
records. -/
structure GoError where
  dynType : ErrType
  ref : Nat
  message : String
  invalid : Option GoSlice
  deriving DecidableEq, Repr

/-- The two sentinel values `datastore.ErrNotFound` and `datastore.ErrExists`
that `encodeError` compares a failure with. Package `datastore` is outside
this file, so the two values are a parameter of the encoder. -/
structure Datastore where
  ErrNotFound : GoError
  ErrExists : GoError
  deriving Repr

/-! ## `http.ResponseWriter` -/

/-- A call made on the response writer. -/
inductive Call where
  | WriteHeader (code : Int) : Call
  | Write (bytes : String) : Call
  deriving DecidableEq, Repr

/-- An `http.ResponseWriter`, seen from the handler: the calls made on it so
far, oldest first, and the error its `Write` returns (`none` when writes
succeed). -/
structure ResponseWriter where
  calls : List Call
  writeErr : Option GoError
  deriving DecidableEq, Repr

/-- A writer nothing has been written to. -/
def ResponseWriter.fresh (writeErr : Option GoError) : ResponseWriter :=
  { calls := [], writeErr := writeErr }

/-- The call `w.WriteHeader(code)`. -/
def ResponseWriter.WriteHeader (w : ResponseWriter) (code : Int) : ResponseWriter :=
  { w with calls := w.calls ++ [Call.WriteHeader code] }

/-- The call `w.Write(bytes)` and the error it returns. -/
def ResponseWriter.Write (w : ResponseWriter) (bytes : String) :
    ResponseWriter × Option GoError :=
  ({ w with calls := w.calls ++ [Call.Write bytes] }, w.writeErr)

/-- The status codes handed to `WriteHeader`, in call order. -/
def statusWrites : List Call → List Int
  | [] => []
  | Call.WriteHeader code :: rest => code :: statusWrites rest
  | Call.Write _ :: rest => statusWrites rest

/-- The byte chunks handed to `Write`, in call order. -/
def bodyWrites : List Call → List String
  | [] => []
  | Call.WriteHeader _ :: rest => bodyWrites rest
  | Call.Write bytes :: rest => bytes :: bodyWrites rest

/-- The status constants of `net/http` the code names or relies on. -/
def StatusOK : Int := 200
def StatusNoContent : Int := 204
def StatusUnauthorized : Int := 401
def StatusForbidden : Int := 403
def StatusNotFound : Int := 404
def StatusConflict : Int := 409
def StatusUnprocessableEntity : Int := 422
def StatusInternalServerError : Int := 500

/-- An informational status, which the server sends at once without settling
the status of the response: a code from 100 to 199 other than
`101 Switching Protocols`. -/
def isInformational (code : Int) : Bool :=
  decide (100 ≤ code ∧ code ≤ 199 ∧ code ≠ 101)

/-- The status line of the response, as `net/http` settles it: the first
call that is not a `WriteHeader` with an informational code decides, a
`WriteHeader` with its code and a `Write` with the default `200 OK`; `none`
while no such call was made. -/
def responseStatus : List Call → Option Int
  | [] => none
  | Call.WriteHeader code :: rest =>
    if isInformational code then responseStatus rest else some code
  | Call.Write _ :: _ => some StatusOK

/-- The method `Encode` of a `json.Encoder` on `w` after `SetIndent("", "  ")`.
The argument is what marshalling the value gives: an error, which is returned
before anything is written, or the document, whose indented text goes to the
writer in one `Write` whose error is returned. -/
def Encode (w : ResponseWriter) (v : Except GoError Json) : ResponseWriter × Option GoError :=
  match v with
  | .error e => (w, some e)
  | .ok doc => w.Write (encodeIndent doc)

/-! ## `transport.go`: the encoder -/

/-- Source: `typeErrsStatus`, a type switch on the failure. -/
def typeErrsStatus (err : GoError) : Int :=
  match err.dynType with
  | .invalidArgumentError => StatusUnprocessableEntity
  | .authError => StatusUnauthorized
  | .forbiddenError => StatusForbidden
  | _ => StatusInternalServerError

/-- The document of the anonymous struct `ve` of `encodeError`, fields in
declaration order under their `json` tags. -/
def validationDoc (problems : GoSlice) : Json :=
  .obj [("message", .str "Validation Failed"), ("errors", marshalSlice problems)]

/-- The document of `map[string]interface{}{"error": err.Error()}`. -/
def plainErrorDoc (err : GoError) : Json :=
  .obj [("error", .str err.message)]

/-- Source: `encodeError`. The context argument is unused and left out. The
status is written first: the `switch err` compares with the two sentinels in
turn, by Go's `==` on interface values (same dynamic type, same value), and
otherwise asks `typeErrsStatus`. Then the body is encoded, the
validation document when `err.(validator)` succeeds and the plain document
otherwise; the error of `enc.Encode` is dropped. -/
def encodeError (ds : Datastore) (err : GoError) (w : ResponseWriter) : ResponseWriter :=
  let w1 :=
    if err = ds.ErrNotFound then w.WriteHeader StatusNotFound
    else if err = ds.ErrExists then w.WriteHeader StatusConflict
    else w.WriteHeader (typeErrsStatus err)
  match err.invalid with
  | some problems => (Encode w1 (.ok (validationDoc problems))).1
  | none => (Encode w1 (.ok (plainErrorDoc err))).1

/-- The `response interface{}` a handler returns, as `encodeResponse` sees it:
`errorer` is `none` when `response.(errorer)` fails and otherwise the result
of `error()` (`some none` for a nil error); `statuser` is `none` when
`response.(statuser)` fails and otherwise the result of `status()`; `marshal`
is what `encoding/json` makes of the value, a document or an error. -/
structure Response where
  errorer : Option (Option GoError)
  statuser : Option Int
  marshal : Except GoError Json

/-- Source: `encodeResponse`, returning the writer afterwards and the
returned `error`. -/
def encodeResponse (ds : Datastore) (w : ResponseWriter) (response : Response) :
    ResponseWriter × Option GoError :=
  match response.errorer with
  | some (some err) => (encodeError ds err w, none)
  | _ =>
    match response.statuser with
    | some code =>
      let w1 := w.WriteHeader code
      if code = StatusNoContent then (w1, none)
      else Encode w1 response.marshal
    | none => Encode w response.marshal

/-! ## `strconv.Atoi` on a 64-bit platform -/

/-- The two causes a `*strconv.NumError` carries: `strconv.ErrSyntax` and
`strconv.ErrRange`. -/
inductive NumErrKind where
  | ErrSyntax : NumErrKind
  | ErrRange : NumErrKind
  deriving DecidableEq, Repr

/-- A `*strconv.NumError`: the failing function, the input and the cause. -/
structure NumError where
  Func : String
  Num : String
  Err : NumErrKind
  deriving DecidableEq, Repr

/-- The size of `int` and `uint` in bits. -/
def intSize : Nat := 64

/-- The largest `uint64`. -/
def maxUint64 : Nat := 2 ^ 64 - 1

/-- The helper `syntaxError` of `strconv`. -/
def syntaxError (fn str : String) : NumError := { Func := fn, Num := str, Err := .ErrSyntax }

/-- The helper `rangeError` of `strconv`. -/
def rangeError (fn str : String) : NumError := { Func := fn, Num := str, Err := .ErrRange }

/-- The digit loop of `strconv.ParseUint(s, 10, 64)` over the remaining
characters, `n` being the `uint64` accumulated so far and `s0` the whole
input. A character outside `0`..`9` is a syntax error (in base 10 a letter is
a digit value of at least the base, and anything else no digit at all). Before
the multiplication `n >= cutoff` detects that `n*10` overflows, after the
addition `n1 < n` detects that it wrapped around; both give the largest value
and a range error. -/
def parseUintLoop (s0 : String) (cutoff maxVal : Nat) : List Char → Nat → Nat × Option NumError
  | [], n => (n, none)
  | c :: cs, n =>
    if '0' ≤ c ∧ c ≤ '9' then
      let d := c.toNat - '0'.toNat
      if n ≥ cutoff then (maxVal, some (rangeError "ParseUint" s0))
      else
        let n10 := (n * 10) % 2 ^ 64
        let n1 := (n10 + d) % 2 ^ 64
        if n1 < n10 ∨ n1 > maxVal then (maxVal, some (rangeError "ParseUint" s0))
        else parseUintLoop s0 cutoff maxVal cs n1
    else (0, some (syntaxError "ParseUint" s0))

/-- The function `strconv.ParseUint(s, 10, 64)`: the empty string is a syntax
error; the cutoff is the smallest number whose tenfold exceeds the largest
`uint64`. -/
def ParseUint (s : String) : Nat × Option NumError :=
  if s = "" then (0, some (syntaxError "ParseUint" s))
  else parseUintLoop s (maxUint64 / 10 + 1) (2 ^ 64 - 1) s.toList 0

/-- The function `strconv.ParseInt(s, 10, 0)`, the bit size 0 standing for
`intSize`: one leading sign is picked off, the rest is parsed unsigned, a
syntax error of that is passed on under the whole input, and the magnitude is
checked against `2^63` (reached only by a negative number). -/
def ParseInt (s : String) : Int × Option NumError :=
  if s = "" then (0, some (syntaxError "ParseInt" s))
  else
    let neg := s.toList.head? = some '-'
    let rest :=
      if s.toList.head? = some '+' ∨ s.toList.head? = some '-' then String.mk s.toList.tail
      else s
    let (un, err) := ParseUint rest
    match err with
    | some { Func := _, Num := _, Err := .ErrSyntax } => (0, some (syntaxError "ParseInt" s))
    | _ =>
      let cutoff : Nat := 2 ^ (intSize - 1)
      if ¬ neg ∧ un ≥ cutoff then (((cutoff - 1 : Nat) : Int), some (rangeError "ParseInt" s))
      else if neg ∧ un > cutoff then (-(cutoff : Int), some (rangeError "ParseInt" s))
      else if neg then (-(un : Int), none)
      else ((un : Int), none)

/-- The function `strconv.Atoi`: `ParseInt(s, 10, 0)` converted to `int`, an
error being reported under the name `Atoi`. -/
def Atoi (s : String) : Int × Option NumError :=
  match ParseInt s with
  | (i64, some nerr) => (i64, some { nerr with Func := "Atoi" })
  | (i64, none) => (i64, none)

/-- The conversion `uint(i)` of an `int`: the value modulo `2^64`. -/
def toUint (i : Int) : Nat := (i % 2 ^ intSize).toNat

/-! ## `transport.go`: the route variable helper -/

/-- An `error` returned by `idFromRequest`: a value made by `errors.New` with
its text, or the `*strconv.NumError` of `Atoi`. -/
inductive RequestError where
  | errorString (text : String) : RequestError
  | numError (e : NumError) : RequestError
  deriving DecidableEq, Repr

/-- Source: `errBadRoute = errors.New("bad route")`. -/
def errBadRoute : RequestError := .errorString "bad route"

/-- An `*http.Request` with the route variables the router resolved for it,
which is all `idFromRequest` reads: `mux.Vars(r)`, the nil map being the empty
list. -/
structure Request where
  vars : List (String × String)
  deriving Repr

/-- Source: `idFromRequest`. -/
def idFromRequest (r : Request) (name : String) : Nat × Option RequestError :=
  match r.vars.lookup name with
  | none => (0, some errBadRoute)
  | some id =>
    match Atoi id with
    | (_, some err) => (0, some (.numError err))
    | (uid, none) => (toUint uid, none)

/-- Source: `decodeNoParamsRequest`, which returns `nil, nil`. -/
def decodeNoParamsRequest (_r : Request) : Option Unit × Option RequestError := (none, none)

/-! ## The specification's wording, for comparison with the code -/

/-- The field problems a validation failure reports: the elements of the list
`Invalid()` returns, none for the nil list and for the empty list. -/
def fieldProblems : GoSlice → List GoMap
  | none => []
  | some maps => maps

/-- The validation body in the specification's words: the message
`Validation Failed` and, under `errors`, the array of the N field problems in
the order given. -/
def specValidationDoc (problems : List GoMap) : Json :=
  .obj [("message", .str "Validation Failed"), ("errors", .arr (problems.map marshalMap))]

/-- A character `0`..`9`. -/
def isDecimalDigit (c : Char) : Bool := decide ('0' ≤ c ∧ c ≤ '9')

/-- A non-empty run of decimal digits. -/
def isDigitRun (cs : List Char) : Bool := !cs.isEmpty && cs.all isDecimalDigit

/-- A base-10 integer literal: one optional sign, `+` or `-`, and then a
non-empty run of decimal digits. -/
def isIntLiteral (s : String) : Bool :=
  match s.toList with
  | [] => false
  | c :: cs => if c = '+' ∨ c = '-' then isDigitRun cs else isDigitRun (c :: cs)

/-- The status codes the specification lists as the only ones produced. -/
def specStatusCodes : List Int := [200, 204, 404, 409, 422, 401, 403, 500]

/-- The status codes `encodeError` chooses from. -/
def errorStatusCodes : List Int := [404, 409, 422, 401, 403, 500]

/-! ## Example values -/

/-- Two sentinels as `errors.New` makes them: distinct values without an
`Invalid()` method. -/
def sampleStore : Datastore :=
  { ErrNotFound := { dynType := .errorString, ref := 1, message := "resource not found",
                     invalid := none },
    ErrExists := { dynType := .errorString, ref := 2, message := "resource already created",
                   invalid := none } }

/-- Sentinels whose dynamic types are among those `typeErrsStatus` names. -/
def typedStore : Datastore :=
  { ErrNotFound := { dynType := .authError, ref := 1, message := "gone", invalid := none },
    ErrExists := { dynType := .forbiddenError, ref := 2, message := "taken", invalid := none } }

/-- An invalid-argument failure reporting two field problems. -/
def sampleInvalid : GoError :=
  { dynType := .invalidArgumentError, ref := 3, message := "validation failed",
    invalid := some (some [some [("name", "required")], some [("email", "taken")]]) }

/-- A failure whose `Invalid()` returns the nil list. -/
def nilInvalid : GoError :=
  { dynType := .invalidArgumentError, ref := 4, message := "validation failed",
    invalid := some none }

/-- A failure of a type `typeErrsStatus` does not name. -/
def sampleOther : GoError :=
  { dynType := .other "*errors.fundamental", ref := 5, message := "boom", invalid := none }

/-- An outcome that carries a failure and also declares a status and has
fields to serialize. -/
def faultyCreated : Response :=
  { errorer := some (some sampleStore.ErrNotFound), statuser := some 201,
    marshal := .ok (.obj [("id", .num "7")]) }

/-- An outcome without failure that declares `204 No Content` and has fields. -/
def noContent : Response :=
  { errorer := some none, statuser := some 204, marshal := .ok (.obj [("id", .num "7")]) }

/-- An outcome without failure that declares `201 Created`. -/
def created : Response :=
  { errorer := some none, statuser := some 201, marshal := .ok (.obj [("id", .num "7")]) }

/-- An outcome with neither capability. -/
def plainOutcome : Response :=
  { errorer := none, statuser := none,
    marshal := .ok (.obj [("hosts", .arr [.str "a", .str "b"]), ("count", .num "2")]) }

/-- An error `encoding/json` returns for a value it cannot serialize. -/
def marshalFailure : GoError :=
  { dynType := .other "*json.UnsupportedTypeError", ref := 6,
    message := "json: unsupported type: chan int", invalid := none }

/-- An error the writer returns from `Write`. -/
def writeFailure : GoError :=
  { dynType := .other "*net.OpError", ref := 7, message := "write: broken pipe",
    invalid := none }

/-- An outcome with neither capability whose value does not serialize. -/
def unserializable : Response :=
  { errorer := none, statuser := none, marshal := .error marshalFailure }

/-- An outcome that declares `201 Created` and whose value does not serialize. -/
def createdUnserializable : Response :=
  { errorer := some none, statuser := some 201, marshal := .error marshalFailure }

/-- An outcome that carries a failure of an unnamed type. -/
def faultyOther : Response :=
  { errorer := some (some sampleOther), statuser := none, marshal := .ok .null }

/-- An `errorer` with a nil error and no `statuser` whose value does not
serialize. -/
def nilErrorUnserializable : Response :=
  { errorer := some none, statuser := none, marshal := .error marshalFailure }

/-- An outcome that declares `202 Accepted` and whose value does not
serialize. -/
def acceptedUnserializable : Response :=
  { errorer := none, statuser := some 202, marshal := .error marshalFailure }

/-- The way `encodeResponse` takes: the failure branch with the failure it
hands to `encodeError`, the early return after `WriteHeader(204)`, or the
serialization of the value. -/
inductive EncodePath where
  | failure (err : GoError) : EncodePath
  | noContent : EncodePath
  | serialize : EncodePath
  deriving DecidableEq, Repr

/-- The way taken, read off the two capabilities alone: what `error()` gives
where the outcome is an `errorer`, and what `status()` gives where it is a
`statuser`. -/
def encodePath (errorer : Option (Option GoError)) (statuser : Option Int) : EncodePath :=
  match errorer with
  | some (some err) => .failure err
  | _ => if statuser = some 204 then .noContent else .serialize

/-- The body chunks written on each way: the one error body of the failure,
nothing, or the indented document where the value serializes and nothing where
it does not. -/
def pathBodies (marshal : Except GoError Json) : EncodePath → List String
  | .failure err =>
    [encodeIndent (match err.invalid with
      | some problems => validationDoc problems
      | none => plainErrorDoc err)]
  | .noContent => []
  | .serialize =>
    match marshal with
    | .ok doc => [encodeIndent doc]
    | .error _ => []

/-! ## Properties of the writer and the encoder -/

theorem statusWrites_append (a b : List Call) :
    statusWrites (a ++ b) = statusWrites a ++ statusWrites b := by
  induction a with
  | nil => rfl
  | cons c rest ih => cases c <;> simp [statusWrites, ih]

theorem bodyWrites_append (a b : List Call) :
    bodyWrites (a ++ b) = bodyWrites a ++ bodyWrites b := by
  induction a with
  | nil => rfl
  | cons c rest ih => cases c <;> simp [bodyWrites, ih]

/-- What `encodeError` does to a writer: one `WriteHeader`, then one `Write`. -/
theorem encodeError_eq (ds : Datastore) (err : GoError) (w : ResponseWriter) :
    encodeError ds err w =
      { calls := w.calls ++
          [Call.WriteHeader (if err = ds.ErrNotFound then StatusNotFound
              else if err = ds.ErrExists then StatusConflict else typeErrsStatus err),
           Call.Write (encodeIndent (match err.invalid with
              | some problems => validationDoc problems
              | none => plainErrorDoc err))],
        writeErr := w.writeErr } := by
  unfold encodeError
  cases h : err.invalid <;> split_ifs <;>
    simp [Encode, ResponseWriter.Write, ResponseWriter.WriteHeader]

/-- The text of a validation body differs from the text of any plain error
body: the first key starts with another letter. -/
theorem validation_ne_plain (problems : GoSlice) (err : GoError) :
    encodeIndent (validationDoc problems) ≠ encodeIndent (plainErrorDoc err) := by
  intro h
  have h2 := congrArg (fun s : String => s.toList.drop 5 |>.head?) h
  simp [encodeIndent, validationDoc, plainErrorDoc, Json.render, newline, quote,
    List.replicate, escapeChar] at h2

/-- The status of a response is a status handed to `WriteHeader` or the
default. -/
theorem responseStatus_cases (calls : List Call) (code : Int)
    (h : responseStatus calls = some code) : code = 200 ∨ code ∈ statusWrites calls := by
  induction calls with
  | nil => simp [responseStatus] at h
  | cons c rest ih =>
    cases c with
    | WriteHeader c0 =>
      simp only [responseStatus] at h
      split_ifs at h
      · rcases ih h with h1 | h1
        · exact Or.inl h1
        · exact Or.inr (by simp [statusWrites, h1])
      · simp only [Option.some.injEq] at h
        simp [statusWrites, h]
    | Write bytes =>
      simp only [responseStatus, Option.some.injEq, StatusOK] at h
      exact Or.inl h.symm

theorem typeErrsStatus_mem (err : GoError) : typeErrsStatus err ∈ errorStatusCodes := by
  unfold typeErrsStatus errorStatusCodes
  split <;> decide

/-- The indented text of a plain error body, with the HTML escape of `<`. -/
theorem encodeIndent_plain_example :
    encodeIndent (.obj [("error", .str "a<b")]) =
      "\x7b\n  \"error\": \"a\\u003cb\"\n\x7d\n" := by
  decide

/-- The indented text of a validation body: maps in slice order, keys sorted
inside a map, `null` for a nil map. -/
theorem encodeIndent_validation_example :
    encodeIndent (validationDoc (some [some [("reason", "required"), ("name", "email")], none])) =
      "\x7b\n  \"message\": \"Validation Failed\",\n  \"errors\": [\n    \x7b\n      \"name\": \"email\",\n      \"reason\": \"required\"\n    \x7d,\n    null\n  ]\n\x7d\n" := by
  decide

/-- What `idFromRequest` returns on some route variables. -/
theorem idFromRequest_examples :
    idFromRequest ⟨[("id", "42")]⟩ "id" = (42, none) ∧
    idFromRequest ⟨[("id", "007")]⟩ "id" = (7, none) ∧
    idFromRequest ⟨[("id", "abc")]⟩ "id" =
      (0, some (.numError ⟨"Atoi", "abc", .ErrSyntax⟩)) ∧
    idFromRequest ⟨[("id", "")]⟩ "id" = (0, some (.numError ⟨"Atoi", "", .ErrSyntax⟩)) ∧
    idFromRequest ⟨[("id", "9223372036854775807")]⟩ "id" = (9223372036854775807, none) ∧
    idFromRequest ⟨[("id", "9223372036854775808")]⟩ "id" =
      (0, some (.numError ⟨"Atoi", "9223372036854775808", .ErrRange⟩)) ∧
    idFromRequest ⟨[("id", "99999999999999999999999x")]⟩ "id" =
      (0, some (.numError ⟨"Atoi", "99999999999999999999999x", .ErrRange⟩)) ∧
    idFromRequest ⟨[("x", "1")]⟩ "id" = (0, some errBadRoute) := by
  decide

/-! ## The response encoder -/

/-- C1: for an outcome that carries a non-nil failure, `encodeResponse` leaves
the writer exactly as `encodeError` on that failure leaves it and returns nil;
whatever status the outcome declares and whatever its value serializes to
makes no difference to the result. -/
theorem encodeResponse_faulty_eq_encodeError (ds : Datastore) (w : ResponseWriter)
    (response : Response) (err : GoError) (h : response.errorer = some (some err)) :
    (encodeResponse ds w response).1 = encodeError ds err w ∧
    (encodeResponse ds w response).2 = none ∧
    (∀ (code : Option Int) (value : Except GoError Json),
      encodeResponse ds w { response with statuser := code, marshal := value } =
        encodeResponse ds w response) := by
  simp [encodeResponse, h]

/-- An outcome that carries the not-found sentinel and declares 201: encoded as the sentinel alone. -/
theorem encodeResponse_faulty_eq_encodeError_witness :
    faultyCreated.errorer = some (some sampleStore.ErrNotFound) ∧
    (encodeResponse sampleStore (ResponseWriter.fresh none) faultyCreated).1 =
      encodeError sampleStore sampleStore.ErrNotFound (ResponseWriter.fresh none) ∧
    (encodeResponse sampleStore (ResponseWriter.fresh none) faultyCreated).2 = none :=
  ⟨rfl,
   (encodeResponse_faulty_eq_encodeError sampleStore (ResponseWriter.fresh none) faultyCreated
      sampleStore.ErrNotFound rfl).1,
   (encodeResponse_faulty_eq_encodeError sampleStore (ResponseWriter.fresh none) faultyCreated
      sampleStore.ErrNotFound rfl).2.1⟩

/-- C2, as stated, fails for the nil list: a failure whose `Invalid()` returns
nil gets `"errors": null`, not the empty array the N = 0 reading asks for. -/
theorem validation_nil_list_counterexample :
    nilInvalid.invalid = some none ∧
    bodyWrites (encodeError sampleStore nilInvalid (ResponseWriter.fresh none)).calls =
      ["\x7b\n  \"message\": \"Validation Failed\",\n  \"errors\": null\n\x7d\n"] ∧
    encodeIndent (specValidationDoc (fieldProblems none)) =
      "\x7b\n  \"message\": \"Validation Failed\",\n  \"errors\": []\n\x7d\n" ∧
    bodyWrites (encodeError sampleStore nilInvalid (ResponseWriter.fresh none)).calls ≠
      [encodeIndent (specValidationDoc (fieldProblems none))] := by
  decide

/-- C2, amended: for a failure with the validation capability `encodeError`
writes one body, the object with `message` = `Validation Failed` and under
`errors` the array of the reported maps in the order reported when `Invalid()`
returns a non-nil list, and `null` when it returns nil; this holds for every
failure and sentinel pair, so whichever status was chosen; no plain error body
is among the calls made. -/
theorem encodeError_validation_body (ds : Datastore) (err : GoError) (w : ResponseWriter)
    (problems : GoSlice) (h : err.invalid = some problems) :
    (∀ maps, problems = some maps →
      bodyWrites (encodeError ds err w).calls = bodyWrites w.calls ++
        [encodeIndent (.obj [("message", .str "Validation Failed"),
          ("errors", .arr (maps.map marshalMap))])]) ∧
    (problems = none →
      bodyWrites (encodeError ds err w).calls = bodyWrites w.calls ++
        [encodeIndent (.obj [("message", .str "Validation Failed"), ("errors", .null)])]) ∧
    (∀ e, Call.Write (encodeIndent (plainErrorDoc e)) ∉
      (encodeError ds err w).calls.drop w.calls.length) := by
  refine ⟨?_, ?_, ?_⟩
  · intro maps hm
    subst hm
    rw [encodeError_eq, h]
    simp [bodyWrites_append, bodyWrites, validationDoc, marshalSlice]
  · intro hm
    subst hm
    rw [encodeError_eq, h]
    simp [bodyWrites_append, bodyWrites, validationDoc, marshalSlice]
  · intro e hmem
    rw [encodeError_eq, h] at hmem
    simp at hmem
    exact validation_ne_plain problems e hmem.symm

/-- A failure reporting two field problems: both appear, in the order reported. -/
theorem encodeError_validation_body_witness :
    sampleInvalid.invalid = some (some [some [("name", "required")], some [("email", "taken")]]) ∧
    bodyWrites (encodeError sampleStore sampleInvalid (ResponseWriter.fresh none)).calls =
      bodyWrites (ResponseWriter.fresh none).calls ++
        [encodeIndent (specValidationDoc [some [("name", "required")], some [("email", "taken")]])] :=
  ⟨rfl,
   (encodeError_validation_body sampleStore sampleInvalid (ResponseWriter.fresh none) _ rfl).1
      _ rfl⟩

/-- C3: with the two sentinels distinct values that have no `Invalid()`
method (as `errors.New` makes them), `encodeError` on the not-found sentinel
writes status 404 and on the already-exists sentinel status 409, each followed
by the plain body with the sentinel's message under `error`; the dynamic type
of the sentinel plays no part. -/
theorem encodeError_sentinel (ds : Datastore) (w : ResponseWriter)
    (hnf : ds.ErrNotFound.invalid = none) (hex : ds.ErrExists.invalid = none)
    (hne : ds.ErrExists ≠ ds.ErrNotFound) :
    (encodeError ds ds.ErrNotFound w).calls = w.calls ++
      [Call.WriteHeader 404,
       Call.Write (encodeIndent (.obj [("error", .str ds.ErrNotFound.message)]))] ∧
    (encodeError ds ds.ErrExists w).calls = w.calls ++
      [Call.WriteHeader 409,
       Call.Write (encodeIndent (.obj [("error", .str ds.ErrExists.message)]))] := by
  constructor
  · rw [encodeError_eq, hnf]
    simp [StatusNotFound, plainErrorDoc]
  · rw [encodeError_eq, hex]
    simp [hne, StatusConflict, plainErrorDoc]

/-- Sentinels of the types `authError` and `forbiddenError` still get 404 and 409. -/
theorem encodeError_sentinel_witness :
    typeErrsStatus typedStore.ErrNotFound = 401 ∧ typeErrsStatus typedStore.ErrExists = 403 ∧
    (encodeError typedStore typedStore.ErrNotFound (ResponseWriter.fresh none)).calls =
      (ResponseWriter.fresh none).calls ++
      [Call.WriteHeader 404,
       Call.Write (encodeIndent (.obj [("error", .str typedStore.ErrNotFound.message)]))] ∧
    (encodeError typedStore typedStore.ErrExists (ResponseWriter.fresh none)).calls =
      (ResponseWriter.fresh none).calls ++
      [Call.WriteHeader 409,
       Call.Write (encodeIndent (.obj [("error", .str typedStore.ErrExists.message)]))] :=
  ⟨by decide, by decide,
   encodeError_sentinel typedStore (ResponseWriter.fresh none) rfl rfl (by decide)⟩

/-- C4: for a failure that is neither sentinel the one status `encodeError`
writes is `typeErrsStatus err`, and that is fixed by the dynamic type alone:
422 for `invalidArgumentError`, 401 for `authError`, 403 for `forbiddenError`,
500 for every other type; two failures of one type get one status whatever
their messages. -/
theorem encodeError_status_by_type (ds : Datastore) (err : GoError) (w : ResponseWriter)
    (h1 : err ≠ ds.ErrNotFound) (h2 : err ≠ ds.ErrExists) :
    statusWrites (encodeError ds err w).calls = statusWrites w.calls ++ [typeErrsStatus err] ∧
    typeErrsStatus err =
      (if err.dynType = .invalidArgumentError then 422
       else if err.dynType = .authError then 401
       else if err.dynType = .forbiddenError then 403
       else 500) ∧
    (∀ other : GoError, other.dynType = err.dynType →
      typeErrsStatus other = typeErrsStatus err) := by
  refine ⟨?_, ?_, ?_⟩
  · rw [encodeError_eq]
    simp [statusWrites_append, statusWrites, h1, h2]
  · unfold typeErrsStatus
    cases err.dynType <;> simp [StatusUnprocessableEntity, StatusUnauthorized, StatusForbidden,
      StatusInternalServerError]
  · intro other ho
    simp [typeErrsStatus, ho]

/-- A failure of an unnamed type gets `typeErrsStatus`, which is 500. -/
theorem encodeError_status_by_type_witness :
    statusWrites (encodeError sampleStore sampleOther (ResponseWriter.fresh none)).calls =
      statusWrites (ResponseWriter.fresh none).calls ++ [typeErrsStatus sampleOther] ∧
    typeErrsStatus sampleOther = 500 :=
  ⟨(encodeError_status_by_type sampleStore sampleOther (ResponseWriter.fresh none)
      (by decide) (by decide)).1,
   (encodeError_status_by_type sampleStore sampleOther (ResponseWriter.fresh none)
      (by decide) (by decide)).2.1⟩

/-- C5: for an outcome without failure whose `status()` is 204,
`encodeResponse` makes the one call `WriteHeader(204)`, hands no bytes to
`Write` whatever the value would serialize to, and returns nil. -/
theorem encodeResponse_no_content (ds : Datastore) (w : ResponseWriter) (response : Response)
    (hok : response.errorer = none ∨ response.errorer = some none)
    (hst : response.statuser = some 204) :
    encodeResponse ds w response =
      ({ calls := w.calls ++ [Call.WriteHeader 204], writeErr := w.writeErr }, none) ∧
    bodyWrites (encodeResponse ds w response).1.calls = bodyWrites w.calls := by
  have heq : encodeResponse ds w response =
      ({ calls := w.calls ++ [Call.WriteHeader 204], writeErr := w.writeErr }, none) := by
    rcases hok with hok | hok <;>
      simp [encodeResponse, hok, hst, StatusNoContent, ResponseWriter.WriteHeader]
  refine ⟨heq, ?_⟩
  rw [heq]
  simp [bodyWrites_append, bodyWrites]

/-- An outcome with fields that declares 204: one `WriteHeader`, no `Write`. -/
theorem encodeResponse_no_content_witness :
    encodeResponse sampleStore (ResponseWriter.fresh none) noContent =
      ({ calls := (ResponseWriter.fresh none).calls ++ [Call.WriteHeader 204],
         writeErr := (ResponseWriter.fresh none).writeErr }, none) ∧
    bodyWrites (encodeResponse sampleStore (ResponseWriter.fresh none) noContent).1.calls =
      bodyWrites (ResponseWriter.fresh none).calls :=
  encodeResponse_no_content sampleStore (ResponseWriter.fresh none) noContent (Or.inr rfl) rfl

/-- C6, as stated, fails: an outcome without failure and without declared
status whose value does not serialize gets no body at all, so no response
status is settled either, and the encoder's error is returned. -/
theorem default_status_unserializable_counterexample :
    nilErrorUnserializable.errorer = some none ∧
    nilErrorUnserializable.statuser = none ∧
    (encodeResponse sampleStore (ResponseWriter.fresh none) nilErrorUnserializable).1.calls
      = [] ∧
    responseStatus
      (encodeResponse sampleStore (ResponseWriter.fresh none) nilErrorUnserializable).1.calls
      = none ∧
    (encodeResponse sampleStore (ResponseWriter.fresh none) nilErrorUnserializable).2 =
      some marshalFailure := by
  decide

/-- C6, amended: for an outcome without failure and without a declared status,
`encodeResponse` calls `WriteHeader` not at all; where the value serializes to
a document the one call it makes is the `Write` of that document in two-space
indented form, and on a writer not yet written to the status of the response
is then the default 200; where the value does not serialize it makes no call
and returns the encoder's error. -/
theorem encodeResponse_default_status (ds : Datastore) (w : ResponseWriter)
    (response : Response)
    (hok : response.errorer = none ∨ response.errorer = some none)
    (hst : response.statuser = none) :
    statusWrites (encodeResponse ds w response).1.calls = statusWrites w.calls ∧
    (∀ doc, response.marshal = .ok doc →
      (encodeResponse ds w response).1.calls = w.calls ++ [Call.Write (encodeIndent doc)] ∧
      (encodeResponse ds w response).2 = w.writeErr ∧
      (w.calls = [] → responseStatus (encodeResponse ds w response).1.calls = some 200)) ∧
    (∀ e, response.marshal = .error e → encodeResponse ds w response = (w, some e)) := by
  have heq : encodeResponse ds w response = Encode w response.marshal := by
    rcases hok with hok | hok <;> simp [encodeResponse, hok, hst]
  rw [heq]
  refine ⟨?_, ?_, ?_⟩
  · cases response.marshal <;>
      simp [Encode, ResponseWriter.Write, statusWrites_append, statusWrites]
  · intro doc hdoc
    rw [hdoc]
    refine ⟨rfl, rfl, ?_⟩
    intro hw
    simp [Encode, ResponseWriter.Write, hw, responseStatus, StatusOK]
  · intro e he
    rw [he]
    rfl

/-- An outcome with neither capability: one `Write` of its document, status 200. -/
theorem encodeResponse_default_status_witness :
    (encodeResponse sampleStore (ResponseWriter.fresh none) plainOutcome).1.calls =
      [Call.Write (encodeIndent
        (.obj [("hosts", .arr [.str "a", .str "b"]), ("count", .num "2")]))] ∧
    responseStatus (encodeResponse sampleStore (ResponseWriter.fresh none) plainOutcome).1.calls =
      some 200 :=
  ⟨((encodeResponse_default_status sampleStore (ResponseWriter.fresh none) plainOutcome
      (Or.inl rfl) rfl).2.1 _ rfl).1,
   ((encodeResponse_default_status sampleStore (ResponseWriter.fresh none) plainOutcome
      (Or.inl rfl) rfl).2.1 _ rfl).2.2 rfl⟩

/-- C7, as stated, fails: an outcome that declares `201 Created` gets status
201, which is none of the eight codes listed. -/
theorem created_status_counterexample :
    statusWrites (encodeResponse sampleStore (ResponseWriter.fresh none) created).1.calls = [201] ∧
    responseStatus (encodeResponse sampleStore (ResponseWriter.fresh none) created).1.calls =
      some 201 ∧
    (201 : Int) ∉ specStatusCodes := by
  decide

/-- C7, amended: every status `encodeError` writes is one of 404, 409, 422,
401, 403, 500; every status `encodeResponse` writes is one of these or the
status the outcome itself declares; and the status of a response encoded on a
writer not yet written to is the default 200, one of the six, or the declared
one. -/
theorem status_codes_emitted (ds : Datastore) (w : ResponseWriter) (response : Response)
    (err : GoError) (code : Int) :
    (code ∈ statusWrites (encodeError ds err w).calls →
      code ∈ statusWrites w.calls ∨ code ∈ errorStatusCodes) ∧
    (code ∈ statusWrites (encodeResponse ds w response).1.calls →
      code ∈ statusWrites w.calls ∨ code ∈ errorStatusCodes ∨ response.statuser = some code) ∧
    (w.calls = [] → responseStatus (encodeResponse ds w response).1.calls = some code →
      code = 200 ∨ code ∈ errorStatusCodes ∨ response.statuser = some code) := by
  have herr : ∀ (e : GoError) (c : Int), c ∈ statusWrites (encodeError ds e w).calls →
      c ∈ statusWrites w.calls ∨ c ∈ errorStatusCodes := by
    intro e c hc
    rw [encodeError_eq] at hc
    simp only [statusWrites_append, statusWrites, List.mem_append, List.mem_singleton] at hc
    rcases hc with hc | hc
    · exact Or.inl hc
    · right
      subst hc
      split_ifs
      · decide
      · decide
      · exact typeErrsStatus_mem e
  have hresp : code ∈ statusWrites (encodeResponse ds w response).1.calls →
      code ∈ statusWrites w.calls ∨ code ∈ errorStatusCodes ∨ response.statuser = some code := by
    intro hc
    unfold encodeResponse at hc
    split at hc
    · rcases herr _ _ hc with h | h
      · exact Or.inl h
      · exact Or.inr (Or.inl h)
    · split at hc
      · rename_i st hst
        have hsub : code ∈ statusWrites w.calls ∨ code = st := by
          split_ifs at hc
          · simpa [ResponseWriter.WriteHeader, statusWrites_append, statusWrites] using hc
          · cases hm : response.marshal <;>
              simpa [hm, Encode, ResponseWriter.Write, ResponseWriter.WriteHeader,
                statusWrites_append, statusWrites] using hc
        rcases hsub with h | h
        · exact Or.inl h
        · exact Or.inr (Or.inr (by rw [hst, h]))
      · left
        cases hm : response.marshal <;>
          simpa [hm, Encode, ResponseWriter.Write, statusWrites_append, statusWrites] using hc
  refine ⟨herr err code, hresp, ?_⟩
  intro hw hs
  rcases responseStatus_cases _ _ hs with h | h
  · exact Or.inl h
  · rcases hresp h with h1 | h1
    · simp [hw, statusWrites] at h1
    · exact Or.inr h1

/-- The status 201 of an outcome that declares it falls under the declared case. -/
theorem status_codes_emitted_witness :
    (201 : Int) = 200 ∨ (201 : Int) ∈ errorStatusCodes ∨ created.statuser = some 201 :=
  (status_codes_emitted sampleStore (ResponseWriter.fresh none) created sampleOther 201).2.2
    rfl (by decide)

/-! ## The route variable helper -/

/-- The decimal digit characters are `0`..`9` in order. -/
theorem digitChar_spec (d : Nat) (hd : d < 10) :
    ('0' ≤ Nat.digitChar d ∧ Nat.digitChar d ≤ '9') ∧
    (Nat.digitChar d).toNat - '0'.toNat = d ∧
    Nat.digitChar d ≠ '+' ∧ Nat.digitChar d ≠ '-' := by
  interval_cases d <;> decide

/-- Reading back what `Nat.toDigitsCore` printed in front of `ds`: the digit
loop started at 0 arrives at `n` when it reaches `ds`. -/
theorem parseUintLoop_toDigitsCore (s0 : String) (fuel : Nat) :
    ∀ (n : Nat) (ds : List Char), n < fuel → n < 2 ^ 64 →
      parseUintLoop s0 (maxUint64 / 10 + 1) (2 ^ 64 - 1) (Nat.toDigitsCore 10 fuel n ds) 0 =
        parseUintLoop s0 (maxUint64 / 10 + 1) (2 ^ 64 - 1) ds n := by
  induction fuel with
  | zero => intro n ds h; exact absurd h (Nat.not_lt_zero _)
  | succ fuel ih =>
    intro n ds hn hbound
    have hd := digitChar_spec (n % 10) (Nat.mod_lt _ (by decide))
    have hstep : ∀ m : Nat, m < 2 ^ 64 → m / 10 * 10 + m % 10 = m →
        parseUintLoop s0 (maxUint64 / 10 + 1) (2 ^ 64 - 1) (Nat.digitChar (m % 10) :: ds) (m / 10) =
          parseUintLoop s0 (maxUint64 / 10 + 1) (2 ^ 64 - 1) ds m := by
      intro m hm hdm
      have hd2 := digitChar_spec (m % 10) (Nat.mod_lt _ (by decide))
      have hcut : ¬ (m / 10 ≥ maxUint64 / 10 + 1) := by
        simp only [maxUint64]; omega
      have h10 : (m / 10 * 10) % 2 ^ 64 = m / 10 * 10 := Nat.mod_eq_of_lt (by omega)
      have h1 : (m / 10 * 10 + m % 10) % 2 ^ 64 = m := by rw [hdm]; exact Nat.mod_eq_of_lt hm
      rw [parseUintLoop]
      simp only [hd2.1, and_self, if_true, hcut, if_false, hd2.2.1, h10, h1]
      have hno : ¬ (m < m / 10 * 10 ∨ m > 2 ^ 64 - 1) := by omega
      simp only [hno, if_false]
    rw [Nat.toDigitsCore]
    by_cases h0 : n / 10 = 0
    · simp only [h0, if_true]
      have := hstep n hbound (by omega)
      rw [h0] at this
      exact this
    · simp only [h0, if_false]
      rw [ih (n / 10) _ (by omega) (by omega)]
      exact hstep n hbound (by omega)

/-- The decimal rendering starts with a digit. -/
theorem toDigitsCore_head (fuel : Nat) :
    ∀ (n : Nat) (ds : List Char),
      (0 < fuel ∨ ∃ d rest, d < 10 ∧ ds = Nat.digitChar d :: rest) →
      ∃ d rest, d < 10 ∧ Nat.toDigitsCore 10 fuel n ds = Nat.digitChar d :: rest := by
  induction fuel with
  | zero =>
    intro n ds h
    rcases h with h | h
    · exact absurd h (Nat.lt_irrefl 0)
    · simpa [Nat.toDigitsCore] using h
  | succ fuel ih =>
    intro n ds _
    rw [Nat.toDigitsCore]
    by_cases h0 : n / 10 = 0
    · simp only [h0, if_true]
      exact ⟨n % 10, ds, Nat.mod_lt _ (by decide), rfl⟩
    · simp only [h0, if_false]
      exact ih (n / 10) _ (Or.inr ⟨n % 10, ds, Nat.mod_lt _ (by decide), rfl⟩)

theorem toString_toList (n : Nat) : (toString n).toList = Nat.toDigits 10 n := rfl

theorem toString_head (n : Nat) :
    ∃ d rest, d < 10 ∧ (toString n).toList = Nat.digitChar d :: rest := by
  rw [toString_toList]
  exact toDigitsCore_head (n + 1) n [] (Or.inl (Nat.succ_pos n))

/-- The function `ParseUint` reads the decimal rendering of a number below
`2^64` back as that number. -/
theorem ParseUint_toString (n : Nat) (hn : n < 2 ^ 64) : ParseUint (toString n) = (n, none) := by
  obtain ⟨d, rest, _, hhead⟩ := toString_head n
  have hne : toString n ≠ "" := by
    intro h
    rw [h] at hhead
    simp at hhead
  unfold ParseUint
  rw [if_neg hne, toString_toList]
  unfold Nat.toDigits
  rw [parseUintLoop_toDigitsCore _ _ _ _ (Nat.lt_succ_self n) hn]
  rfl

/-- The function `ParseInt` reads the decimal rendering of a number below
`2^63` back as that number. -/
theorem ParseInt_toString (n : Nat) (hn : n < 2 ^ 63) :
    ParseInt (toString n) = ((n : Int), none) := by
  obtain ⟨d, rest, hd, hhead⟩ := toString_head n
  have hc := digitChar_spec d hd
  have hne : toString n ≠ "" := by
    intro h
    rw [h] at hhead
    simp at hhead
  have hplus : ¬ ((toString n).data.head? = some '+') := by
    have : (toString n).data = Nat.digitChar d :: rest := hhead
    simp [this, hc.2.2.1]
  have hminus : ¬ ((toString n).data.head? = some '-') := by
    have : (toString n).data = Nat.digitChar d :: rest := hhead
    simp [this, hc.2.2.2]
  unfold ParseInt
  simp [hne, hplus, hminus, ParseUint_toString n (by omega), intSize]
  omega

/-- A leading plus sign is picked off. -/
theorem ParseInt_plus_toString (n : Nat) (hn : n < 2 ^ 63) :
    ParseInt ("+" ++ toString n) = ((n : Int), none) := by
  have hlist : ("+" ++ toString n).toList = '+' :: (toString n).toList := rfl
  have hne : "+" ++ toString n ≠ "" := by
    intro h
    have := congrArg String.toList h
    rw [hlist] at this
    simp at this
  unfold ParseInt
  simp [hne, hlist]
  have hmk : String.mk (toString n).toList = toString n := rfl
  simp [hmk, ParseUint_toString n (by omega), intSize]
  omega

/-- A run with a character that is no digit makes the digit loop fail, with
a syntax error at that character or with a range error before it. -/
theorem parseUintLoop_not_digits (s0 : String) (cutoff maxVal : Nat) (cs : List Char) :
    ∀ n : Nat, cs.all isDecimalDigit = false →
      parseUintLoop s0 cutoff maxVal cs n = (0, some (syntaxError "ParseUint" s0)) ∨
      parseUintLoop s0 cutoff maxVal cs n = (maxVal, some (rangeError "ParseUint" s0)) := by
  induction cs with
  | nil => intro n h; simp at h
  | cons c cs ih =>
    intro n h
    rw [parseUintLoop]
    by_cases hc : '0' ≤ c ∧ c ≤ '9'
    · have hrest : cs.all isDecimalDigit = false := by
        have hcd : isDecimalDigit c = true := by simp [isDecimalDigit, hc]
        simpa [List.all_cons, hcd] using h
      simp only [hc, and_self, if_true]
      split_ifs
      · exact Or.inr rfl
      · exact Or.inr rfl
      · exact ih _ hrest
    · rw [if_neg hc]
      exact Or.inl rfl

/-- The function `ParseUint` fails on everything but a non-empty run of digits. -/
theorem ParseUint_not_digits (s : String) (h : isDigitRun s.toList = false) :
    ParseUint s = (0, some (syntaxError "ParseUint" s)) ∨
    ParseUint s = (2 ^ 64 - 1, some (rangeError "ParseUint" s)) := by
  unfold ParseUint
  by_cases he : s = ""
  · simp [he]
  · rw [if_neg he]
    apply parseUintLoop_not_digits
    have hne : s.toList ≠ [] := by
      intro hnil
      apply he
      exact String.ext hnil
    cases hl : s.toList with
    | nil => exact absurd hl hne
    | cons c cs =>
      rw [hl] at h
      simpa [isDigitRun] using h

/-- The function `ParseInt` fails on everything but an integer literal, with
an error that names the whole input. -/
theorem ParseInt_not_literal (s : String) (h : isIntLiteral s = false) :
    ∃ v kind, ParseInt s = (v, some { Func := "ParseInt", Num := s, Err := kind }) := by
  unfold ParseInt
  by_cases he : s = ""
  · exact ⟨0, .ErrSyntax, by simp [he, syntaxError]⟩
  · rw [if_neg he]
    cases hl : s.toList with
    | nil => exact absurd (String.ext hl) he
    | cons c cs =>
      simp only [isIntLiteral, hl] at h
      by_cases hsign : c = '+' ∨ c = '-'
      · rw [if_pos hsign] at h
        have hrest : isDigitRun (String.mk cs).toList = false := h
        rcases ParseUint_not_digits _ hrest with hp | hp
        · refine ⟨0, .ErrSyntax, ?_⟩
          simp [hsign, hp, syntaxError]
        · by_cases hneg : c = '-'
          · refine ⟨-(2 ^ 63 : Int), .ErrRange, ?_⟩
            simp [hsign, hp, hneg, rangeError, intSize]
          · have hplus : c = '+' := hsign.resolve_right hneg
            refine ⟨2 ^ 63 - 1, .ErrRange, ?_⟩
            simp [hplus, hp, rangeError, intSize]
      · rw [if_neg hsign] at h
        have hrest : isDigitRun s.toList = false := by rw [hl]; exact h
        have hplus : ¬ c = '+' := fun hc => hsign (Or.inl hc)
        have hminus : ¬ c = '-' := fun hc => hsign (Or.inr hc)
        rcases ParseUint_not_digits _ hrest with hp | hp
        · refine ⟨0, .ErrSyntax, ?_⟩
          simp [hplus, hminus, hp, syntaxError]
        · refine ⟨2 ^ 63 - 1, .ErrRange, ?_⟩
          simp [hplus, hminus, hp, rangeError, intSize]

/-- Converting a non-negative `int` to `uint` keeps the value. -/
theorem toUint_natCast (n : Nat) (hn : n < 2 ^ 64) : toUint (n : Int) = n := by
  unfold toUint intSize
  have h1 : (n : Int) % 2 ^ 64 = (n : Int) :=
    Int.emod_eq_of_lt (Int.natCast_nonneg n) (by exact_mod_cast hn)
  rw [h1]
  exact Int.toNat_natCast n

/-- C8, as stated, fails: `+5` and `-1` are no non-negative integer literals
in the claim's sense, yet `idFromRequest` returns an identifier and no error
for both. -/
theorem signed_literal_counterexample :
    idFromRequest ⟨[("id", "+5")]⟩ "id" = (5, none) ∧
    idFromRequest ⟨[("id", "-1")]⟩ "id" = (18446744073709551615, none) := by
  decide

/-- C8, amended: when the route variable is present and its value is not a
base-10 integer literal (an optional `+` or `-`, then one or more digits
`0`..`9`), `idFromRequest` returns 0 and the `*strconv.NumError` of `Atoi` for
that value; so a value it accepts is such a literal; and a `+` in front of the
decimal rendering of a number below `2^63` is accepted with that number. -/
theorem idFromRequest_rejects_non_literal (r : Request) (name s : String)
    (hv : r.vars.lookup name = some s) :
    (isIntLiteral s = false →
      ∃ kind, idFromRequest r name =
        (0, some (.numError { Func := "Atoi", Num := s, Err := kind }))) ∧
    ((idFromRequest r name).2 = none → isIntLiteral s = true) ∧
    (∀ n : Nat, n < 2 ^ 63 → s = "+" ++ toString n → idFromRequest r name = (n, none)) := by
  have hrej : isIntLiteral s = false →
      ∃ kind, idFromRequest r name =
        (0, some (.numError { Func := "Atoi", Num := s, Err := kind })) := by
    intro hbad
    obtain ⟨v, kind, hp⟩ := ParseInt_not_literal s hbad
    exact ⟨kind, by simp [idFromRequest, hv, Atoi, hp]⟩
  refine ⟨hrej, ?_, ?_⟩
  · intro hok
    by_contra hlit
    obtain ⟨kind, hk⟩ := hrej (by simpa using hlit)
    rw [hk] at hok
    simp at hok
  · intro n hn hs
    subst hs
    simp [idFromRequest, hv, Atoi, ParseInt_plus_toString n hn, toUint_natCast n (by omega)]

/-- The value `1.5` is rejected with a parse error, the value `+5` accepted as 5. -/
theorem idFromRequest_rejects_non_literal_witness :
    (∃ kind, idFromRequest ⟨[("id", "1.5")]⟩ "id" =
      (0, some (.numError { Func := "Atoi", Num := "1.5", Err := kind }))) ∧
    idFromRequest ⟨[("id", "+" ++ toString 5)]⟩ "id" = (5, none) :=
  ⟨(idFromRequest_rejects_non_literal ⟨[("id", "1.5")]⟩ "id" "1.5" (by decide)).1 (by decide),
   (idFromRequest_rejects_non_literal ⟨[("id", "+" ++ toString 5)]⟩ "id" ("+" ++ toString 5)
      (by decide)).2.2 5 (by decide) rfl⟩

/-- C9: `idFromRequest` returns `(0, errBadRoute)` exactly when the name is
absent from the route variables, and its error is `errBadRoute` exactly then:
a present variable never yields `errBadRoute`, an absent one nothing else. -/
theorem idFromRequest_bad_route_iff (r : Request) (name : String) :
    (idFromRequest r name = (0, some errBadRoute) ↔ r.vars.lookup name = none) ∧
    ((idFromRequest r name).2 = some errBadRoute ↔ r.vars.lookup name = none) := by
  unfold idFromRequest
  cases hv : r.vars.lookup name with
  | none => simp
  | some id =>
    rcases hA : Atoi id with ⟨uid, _ | nerr⟩ <;> simp [hA, errBadRoute]

/-- C10: when the route variable is the decimal rendering of a number `n`
below `2^63`, `idFromRequest` returns `n` and no error. -/
theorem idFromRequest_toString (r : Request) (name : String) (n : Nat) (hn : n < 2 ^ 63)
    (hv : r.vars.lookup name = some (toString n)) :
    idFromRequest r name = (n, none) := by
  simp [idFromRequest, hv, Atoi, ParseInt_toString n hn, toUint_natCast n (by omega)]

/-- The route variable `42` gives the identifier 42. -/
theorem idFromRequest_toString_witness :
    toString 42 = "42" ∧ idFromRequest ⟨[("id", "42")]⟩ "id" = (42, none) :=
  ⟨by decide, idFromRequest_toString ⟨[("id", "42")]⟩ "id" 42 (by decide) (by decide)⟩

/-! ## Errors, order of writes, and the three ways through the encoder -/

/-- An outcome is an `errorer` with a nil error, an `errorer` with a failure,
or no `errorer`. -/
theorem errorer_cases (response : Response) :
    (response.errorer = none ∨ response.errorer = some none) ∨
    ∃ err, response.errorer = some (some err) := by
  rcases h : response.errorer with _ | _ | err
  · exact Or.inl (Or.inl rfl)
  · exact Or.inl (Or.inr rfl)
  · exact Or.inr ⟨err, rfl⟩

/-- What `encodeResponse` does for an outcome without failure. -/
theorem encodeResponse_nonfaulty (ds : Datastore) (w : ResponseWriter) (response : Response)
    (hok : response.errorer = none ∨ response.errorer = some none) :
    encodeResponse ds w response =
      match response.statuser with
      | some code =>
        if code = StatusNoContent then (w.WriteHeader code, none)
        else Encode (w.WriteHeader code) response.marshal
      | none => Encode w response.marshal := by
  rcases hok with hok | hok <;> simp [encodeResponse, hok]

/-- The function `Encode` makes no `WriteHeader` call. -/
theorem Encode_statusWrites (w : ResponseWriter) (v : Except GoError Json) :
    statusWrites (Encode w v).1.calls = statusWrites w.calls := by
  cases v <;> simp [Encode, ResponseWriter.Write, statusWrites_append, statusWrites]

/-- The error `Encode` returns is the marshalling error or the error of the
one `Write`. -/
theorem Encode_error (w : ResponseWriter) (v : Except GoError Json) (e : GoError)
    (h : (Encode w v).2 = some e) :
    v = .error e ∨ ∃ doc, v = .ok doc ∧ w.writeErr = some e := by
  cases v with
  | error e0 =>
    simp only [Encode, Option.some.injEq] at h
    exact Or.inl (by rw [h])
  | ok doc => exact Or.inr ⟨doc, rfl, h⟩

/-- C11, as stated, fails: an outcome that declares 201 and does not serialize
makes `encodeResponse` return the encoder's error after `WriteHeader(201)`. -/
theorem error_after_status_counterexample :
    (encodeResponse sampleStore (ResponseWriter.fresh none) createdUnserializable).2 =
      some marshalFailure ∧
    (encodeResponse sampleStore (ResponseWriter.fresh none) createdUnserializable).1.calls =
      [Call.WriteHeader 201] := by
  decide

/-- C11, amended: when `encodeResponse` returns an error, the outcome carries
no failure and does not declare 204, and the status writes of the call are
exactly the outcome's declared status where it declares one and none where it
declares none; so for an outcome that is no `statuser` an error means no
`WriteHeader` call was made. -/
theorem encodeResponse_error_status_writes (ds : Datastore) (w : ResponseWriter)
    (response : Response) (e : GoError) (h : (encodeResponse ds w response).2 = some e) :
    (response.errorer = none ∨ response.errorer = some none) ∧
    response.statuser ≠ some 204 ∧
    statusWrites (encodeResponse ds w response).1.calls =
      statusWrites w.calls ++ response.statuser.toList := by
  rcases errorer_cases response with hok | ⟨err, herr⟩
  · refine ⟨hok, ?_, ?_⟩
    · intro hst
      rw [encodeResponse_nonfaulty ds w response hok, hst] at h
      simp [StatusNoContent] at h
    · rw [encodeResponse_nonfaulty ds w response hok]
      cases hst : response.statuser with
      | none => simp [Encode_statusWrites]
      | some code =>
        by_cases hc : code = StatusNoContent
        · simp [hc, ResponseWriter.WriteHeader, statusWrites_append, statusWrites]
        · simp [hc, Encode_statusWrites, ResponseWriter.WriteHeader, statusWrites_append,
            statusWrites]
  · simp [encodeResponse, herr] at h

/-- An outcome with neither capability that does not serialize: the error is
returned and no status was written. -/
theorem encodeResponse_error_status_writes_witness :
    (encodeResponse sampleStore (ResponseWriter.fresh none) unserializable).2 =
      some marshalFailure ∧
    statusWrites (encodeResponse sampleStore (ResponseWriter.fresh none) unserializable).1.calls =
      statusWrites (ResponseWriter.fresh none).calls ++ unserializable.statuser.toList :=
  ⟨by decide,
   (encodeResponse_error_status_writes sampleStore (ResponseWriter.fresh none) unserializable
      marshalFailure (by decide)).2.2⟩

/-- C13, as stated, fails: two outcomes with the same capabilities (no
`errorer`, no `statuser`) get a body and no body, and the one without body
neither carries a failure nor declares 204. -/
theorem unserializable_counterexample :
    unserializable.errorer = plainOutcome.errorer ∧
    unserializable.statuser = plainOutcome.statuser ∧
    unserializable.statuser ≠ some 204 ∧
    bodyWrites (encodeResponse sampleStore (ResponseWriter.fresh none) unserializable).1.calls
      = [] ∧
    (bodyWrites
      (encodeResponse sampleStore (ResponseWriter.fresh none) plainOutcome).1.calls).length
      = 1 := by
  decide

/-- C13, amended: `encodeResponse` takes exactly one of three ways, fixed by
the two capabilities alone: the failure way for an outcome with a failure, the
no-content way for one without failure that declares 204, the serialization
way otherwise. On the first it writes the one error body of the failure, on
the second no body, on the third the indented document of the value where the
value serializes and no body where it does not. -/
theorem encodeResponse_three_ways (ds : Datastore) (w : ResponseWriter) (response : Response) :
    bodyWrites (encodeResponse ds w response).1.calls =
      bodyWrites w.calls ++
        pathBodies response.marshal (encodePath response.errorer response.statuser) ∧
    (∀ err, encodePath response.errorer response.statuser = .failure err ↔
      response.errorer = some (some err)) ∧
    (encodePath response.errorer response.statuser = .noContent ↔
      (response.errorer = none ∨ response.errorer = some none) ∧
        response.statuser = some 204) ∧
    (encodePath response.errorer response.statuser = .serialize ↔
      (response.errorer = none ∨ response.errorer = some none) ∧
        response.statuser ≠ some 204) := by
  rcases errorer_cases response with hok | ⟨err, herr⟩
  · have hpath : encodePath response.errorer response.statuser =
        if response.statuser = some 204 then .noContent else .serialize := by
      rcases hok with h | h <;> simp [encodePath, h]
    have hnf : ∀ err, response.errorer ≠ some (some err) := by
      intro err h
      rcases hok with h1 | h1 <;> simp [h1] at h
    refine ⟨?_, ?_, ?_, ?_⟩
    · rw [encodeResponse_nonfaulty ds w response hok, hpath]
      cases hst : response.statuser with
      | none =>
        cases hm : response.marshal <;>
          simp [pathBodies, Encode, ResponseWriter.Write, bodyWrites_append, bodyWrites]
      | some code =>
        by_cases hc : code = 204
        · simp [hc, StatusNoContent, pathBodies, ResponseWriter.WriteHeader, bodyWrites_append,
            bodyWrites]
        · cases hm : response.marshal <;>
            simp [hc, StatusNoContent, pathBodies, Encode, ResponseWriter.Write,
              ResponseWriter.WriteHeader, bodyWrites_append, bodyWrites]
    · intro err
      rw [hpath]
      constructor
      · intro h
        split_ifs at h
      · intro h
        exact absurd h (hnf err)
    · rw [hpath]
      by_cases h204 : response.statuser = some 204 <;> simp [h204, hok]
    · rw [hpath]
      by_cases h204 : response.statuser = some 204 <;> simp [h204, hok]
  · have hpath : encodePath response.errorer response.statuser = .failure err := by
      simp [encodePath, herr]
    refine ⟨?_, ?_, ?_, ?_⟩
    · rw [hpath]
      simp only [encodeResponse, herr]
      rw [encodeError_eq]
      simp [pathBodies, bodyWrites_append, bodyWrites]
    · intro e
      rw [hpath, herr]
      simp
    · rw [hpath, herr]
      simp
    · rw [hpath, herr]
      simp

/-- C15, as stated, fails: an outcome without failure that declares 202 and
whose value does not serialize gets the status and then no body. -/
theorem declared_status_unserializable_counterexample :
    acceptedUnserializable.errorer = none ∧
    acceptedUnserializable.statuser = some 202 ∧
    (encodeResponse sampleStore (ResponseWriter.fresh none) acceptedUnserializable).1.calls =
      [Call.WriteHeader 202] ∧
    bodyWrites
      (encodeResponse sampleStore (ResponseWriter.fresh none) acceptedUnserializable).1.calls
      = [] := by
  decide

/-- C15, amended: for an outcome without failure that declares a status `s`
other than 204, the first call `encodeResponse` makes is `WriteHeader(s)` and
no other status is written after it; where the value serializes to a document
the calls are exactly `WriteHeader(s)` and then the `Write` of the indented
document; where it does not serialize the one call is `WriteHeader(s)` and
the encoder's error is returned. -/
theorem encodeResponse_declared_status (ds : Datastore) (w : ResponseWriter)
    (response : Response) (s : Int)
    (hok : response.errorer = none ∨ response.errorer = some none)
    (hst : response.statuser = some s) (hs : s ≠ 204) :
    (∃ rest, (encodeResponse ds w response).1.calls = w.calls ++ Call.WriteHeader s :: rest ∧
      statusWrites rest = []) ∧
    (∀ doc, response.marshal = .ok doc →
      (encodeResponse ds w response).1.calls =
        w.calls ++ [Call.WriteHeader s, Call.Write (encodeIndent doc)] ∧
      (encodeResponse ds w response).2 = w.writeErr) ∧
    (∀ e, response.marshal = .error e →
      (encodeResponse ds w response).1.calls = w.calls ++ [Call.WriteHeader s] ∧
      (encodeResponse ds w response).2 = some e) := by
  have heq : encodeResponse ds w response = Encode (w.WriteHeader s) response.marshal := by
    rw [encodeResponse_nonfaulty ds w response hok, hst]
    simp [StatusNoContent, hs]
  rw [heq]
  refine ⟨?_, ?_, ?_⟩
  · cases hm : response.marshal with
    | error e => exact ⟨[], by simp [Encode, ResponseWriter.WriteHeader], rfl⟩
    | ok doc =>
      exact ⟨[Call.Write (encodeIndent doc)],
        by simp [Encode, ResponseWriter.Write, ResponseWriter.WriteHeader], rfl⟩
  · intro doc hdoc
    rw [hdoc]
    simp [Encode, ResponseWriter.Write, ResponseWriter.WriteHeader]
  · intro e he
    rw [he]
    simp [Encode, ResponseWriter.WriteHeader]

/-- An outcome that declares 201: `WriteHeader(201)`, then its document. -/
theorem encodeResponse_declared_status_witness :
    (encodeResponse sampleStore (ResponseWriter.fresh none) created).1.calls =
      (ResponseWriter.fresh none).calls ++
        [Call.WriteHeader 201, Call.Write (encodeIndent (.obj [("id", .num "7")]))] ∧
    (encodeResponse sampleStore (ResponseWriter.fresh none) created).2 =
      (ResponseWriter.fresh none).writeErr :=
  (encodeResponse_declared_status sampleStore (ResponseWriter.fresh none) created 201
    (Or.inr rfl) rfl (by decide)).2.1 _ rfl

/-- C16: for an outcome with a failure `encodeResponse` returns nil whatever
the writer does, also when its `Write` fails; and an error it returns comes
from an outcome without failure that does not declare 204 and is the error of
the encoder on the value: the marshalling error, or the error of the `Write`
of the document. -/
theorem encodeResponse_error_source (ds : Datastore) (w : ResponseWriter)
    (response : Response) :
    (∀ err, response.errorer = some (some err) → (encodeResponse ds w response).2 = none) ∧
    (∀ e, (encodeResponse ds w response).2 = some e →
      (response.errorer = none ∨ response.errorer = some none) ∧
      response.statuser ≠ some 204 ∧
      (response.marshal = .error e ∨
        ∃ doc, response.marshal = .ok doc ∧ w.writeErr = some e)) := by
  constructor
  · intro err herr
    simp [encodeResponse, herr]
  · intro e h
    rcases errorer_cases response with hok | ⟨err, herr⟩
    · rw [encodeResponse_nonfaulty ds w response hok] at h
      refine ⟨hok, ?_, ?_⟩
      · intro hst
        rw [hst] at h
        simp [StatusNoContent] at h
      · cases hst : response.statuser with
        | none =>
          rw [hst] at h
          exact Encode_error w _ e h
        | some code =>
          rw [hst] at h
          by_cases hc : code = StatusNoContent
          · simp [hc] at h
          · simp only [hc, if_false] at h
            exact Encode_error (w.WriteHeader code) _ e h
    · simp [encodeResponse, herr] at h

/-- A failure encoded on a writer whose `Write` fails: the `Write` is made,
its error dropped, and nil returned. -/
theorem encodeResponse_error_source_witness :
    (ResponseWriter.fresh (some writeFailure)).writeErr = some writeFailure ∧
    (encodeResponse sampleStore (ResponseWriter.fresh (some writeFailure)) faultyOther).2 =
      none :=
  ⟨rfl,
   (encodeResponse_error_source sampleStore (ResponseWriter.fresh (some writeFailure))
      faultyOther).1 sampleOther rfl⟩

/-- A leading minus sign is picked off and the magnitude, up to `2^63`,
negated. -/
theorem ParseInt_minus_toString (k : Nat) (hk : k ≤ 2 ^ 63) :
    ParseInt ("-" ++ toString k) = (-(k : Int), none) := by
  have hlist : ("-" ++ toString k).toList = '-' :: (toString k).toList := rfl
  have hne : "-" ++ toString k ≠ "" := by
    intro h
    have := congrArg String.toList h
    rw [hlist] at this
    simp at this
  unfold ParseInt
  simp [hne, hlist]
  have hmk : String.mk (toString k).toList = toString k := rfl
  simp [hmk, ParseUint_toString k (by omega), intSize]
  omega

/-- Converting a negative `int` to `uint` wraps around `2^64`. -/
theorem toUint_neg (k : Nat) (h1 : 1 ≤ k) (h2 : k ≤ 2 ^ 64) :
    toUint (-(k : Int)) = 2 ^ 64 - k := by
  unfold toUint intSize
  have hmod : (-(k : Int)) % 2 ^ 64 = ((2 ^ 64 - k : Nat) : Int) := by
    have hcast : ((2 ^ 64 - k : Nat) : Int) = (2 ^ 64 : Int) - (k : Int) := by
      rw [Nat.cast_sub h2]
      norm_num
    rw [hcast]
    omega
  rw [hmod]
  exact Int.toNat_natCast _

/-- C17: for `1 <= k <= 2^63`, a route variable that is a minus sign and the
decimal rendering of `k` makes `idFromRequest` return `2^64 - k` and no
error. -/
theorem idFromRequest_negative_wraps (r : Request) (name : String) (k : Nat)
    (h1 : 1 ≤ k) (h2 : k ≤ 2 ^ 63) (hv : r.vars.lookup name = some ("-" ++ toString k)) :
    idFromRequest r name = (2 ^ 64 - k, none) := by
  simp [idFromRequest, hv, Atoi, ParseInt_minus_toString k h2, toUint_neg k h1 (by omega)]

/-- The route variable `-1` gives the largest `uint`, and `-9223372036854775808`
gives `2^63`. -/
theorem idFromRequest_negative_wraps_witness :
    "-" ++ toString 1 = "-1" ∧
    idFromRequest ⟨[("id", "-1")]⟩ "id" = (2 ^ 64 - 1, none) ∧
    idFromRequest ⟨[("id", "-9223372036854775808")]⟩ "id" = (2 ^ 64 - 2 ^ 63, none) :=
  ⟨by decide,
   idFromRequest_negative_wraps ⟨[("id", "-1")]⟩ "id" 1 (by decide) (by decide) (by decide),
   idFromRequest_negative_wraps ⟨[("id", "-9223372036854775808")]⟩ "id" (2 ^ 63)
     (by decide) (by decide) (by decide)⟩

end Transport
